import Mathlib

/-
  Shallow embedding of the TDEE estimation service.

  Sources embedded:
  - src/config.py                      (tuning constants)
  - src/utils/bmr_calculator.py        (Mifflin-St Jeor BMR)
  - src/services/tdee_estimator.py     (Kalman predict / update / bounds)
  - src/main.py                        (intake imputation, daily driver loop,
                                        14-day forecast generation)
  - src/services/firestore.py          (caloric-intake series construction)

  Real-valued quantities are embedded as rationals (ℚ); the only places the
  code takes a square root (confidence bounds) are embedded over ℝ with
  Real.sqrt.  Dates are embedded as integers (day numbers); the sparse
  date-keyed dictionaries of the code are embedded as association lists
  List (ℤ × ℚ) and Option-valued maps.  numpy's matrix inversion of the 1x1
  innovation covariance raises on a singular input; this is embedded as an
  Option (none exactly when S = 0).
-/

namespace TDEE

/-! ## Configuration constants (src/config.py) -/

/-- config.KCAL_PER_KG_BODY_WEIGHT = 7700.0 -/
def kcalPerKg : ℚ := 7700

/-- config.PROCESS_NOISE_VAR_TDEE = 50.0 ** 2 -/
def processNoiseVarTdee : ℚ := 2500

/-- config.CALORIE_INTAKE_UNCERTAINTY_VAR = 200.0 ** 2 -/
def calorieIntakeUncertaintyVar : ℚ := 40000

/-- config.MEASUREMENT_NOISE_VAR_WEIGHT = 0.5 ** 2 -/
def measurementNoiseVarWeight : ℚ := 1/4

/-- config.Z_SCORE_FOR_BOUNDS = 1.96 -/
def zScoreForBounds : ℚ := 49/25

/-- config.MIN_PLAUSIBLE_INTAKE_RATIO = 0.6 -/
def minPlausibleIntakeFactor : ℚ := 3/5

/-! ## Data model -/

/-- State vector [weight_kg, tdee_kcal] (numpy array of length 2). -/
structure Vec2 where
  w : ℚ
  t : ℚ
deriving DecidableEq

/-- A 2x2 matrix [[a, b], [c, d]]; used for the covariance and for F. -/
structure Mat2 where
  a : ℚ
  b : ℚ
  c : ℚ
  d : ℚ
deriving DecidableEq

def matMul (M N : Mat2) : Mat2 :=
  ⟨M.a * N.a + M.b * N.c, M.a * N.b + M.b * N.d,
   M.c * N.a + M.d * N.c, M.c * N.b + M.d * N.d⟩

def matTranspose (M : Mat2) : Mat2 := ⟨M.a, M.c, M.b, M.d⟩

def matAdd (M N : Mat2) : Mat2 :=
  ⟨M.a + N.a, M.b + N.b, M.c + N.c, M.d + N.d⟩

/-! ## BMR (src/utils/bmr_calculator.py) -/

inductive Sex where
  | male : Sex
  | female : Sex
deriving DecidableEq

/-- calculate_mifflin_st_jeor_bmr: male → 10w + 6.25h − 5a + 5,
    female → 10w + 6.25h − 5a − 161. -/
def calculateMifflinStJeorBmr (sex : Sex) (age height_cm weight_kg : ℚ) : ℚ :=
  match sex with
  | Sex.male => 10 * weight_kg + (25/4) * height_cm - 5 * age + 5
  | Sex.female => 10 * weight_kg + (25/4) * height_cm - 5 * age - 161

/-- The profile fields the estimator and driver consume. -/
structure Profile where
  sex : Sex
  age : ℚ
  height_cm : ℚ

/-! ## Kalman estimator (src/services/tdee_estimator.py) -/

/-- Transition matrix F = [[1, −1/K], [0, 1]] (TDEEEstimator.__init__). -/
def Fmat : Mat2 := ⟨1, -1 / kcalPerKg, 0, 1⟩

/-- Process noise Q = diag(CALORIE_INTAKE_UNCERTAINTY_VAR / K²,
    PROCESS_NOISE_VAR_TDEE) (TDEEEstimator.predict). -/
def Qmat : Mat2 := ⟨calorieIntakeUncertaintyVar / kcalPerKg ^ 2, 0, 0, processNoiseVarTdee⟩

/-- State part of TDEEEstimator.predict: weight moves by
    (intake − tdee)/K, tdee unchanged. -/
def predictState (x : Vec2) (intake : ℚ) : Vec2 :=
  ⟨x.w + (intake - x.t) / kcalPerKg, x.t⟩

/-- Covariance part of TDEEEstimator.predict: P' = F·P·Fᵗ + Q. -/
def predictCov (P : Mat2) : Mat2 :=
  matAdd (matMul (matMul Fmat P) (matTranspose Fmat)) Qmat

/-- Inversion of the 1x1 innovation covariance: np.linalg.inv raises
    LinAlgError on a singular (zero) input, embedded as none. -/
def inv1 (s : ℚ) : Option ℚ :=
  if s = 0 then none else some s⁻¹

/-- TDEEEstimator.update with H = [1, 0], R = MEASUREMENT_NOISE_VAR_WEIGHT:
    y = z − w; S = P[0,0] + R; K = P·Hᵗ·S⁻¹; x' = x + K·y;
    P' = (I − K·H)·P.  Returns none exactly when S is singular. -/
def update (x : Vec2) (P : Mat2) (z : ℚ) : Option (Vec2 × Mat2) :=
  let y := z - x.w
  let S := P.a + measurementNoiseVarWeight
  (inv1 S).map fun si =>
    let k0 := P.a * si
    let k1 := P.c * si
    (⟨x.w + k0 * y, x.t + k1 * y⟩,
     ⟨(1 - k0) * P.a, (1 - k0) * P.b, P.c - k1 * P.a, P.d - k1 * P.b⟩)

/-- TDEEEstimator.get_bounds: tdee ± Z·√P[1,1]. -/
noncomputable def getBounds (x : Vec2) (P : Mat2) : ℝ × ℝ :=
  ((x.t : ℝ) - (zScoreForBounds : ℝ) * Real.sqrt (P.d : ℝ),
   (x.t : ℝ) + (zScoreForBounds : ℝ) * Real.sqrt (P.d : ℝ))

/-- Modelled from the spec: TDEEEstimator.get_weight_bounds is absent from
    src (only its call site main.py:189 is present).  Per spec §4.4 Bounds,
    the weight-channel interval is estimate ± 1.96·√(P[0,0]), computed
    independently of the TDEE channel. -/
noncomputable def getWeightBounds (x : Vec2) (P : Mat2) : ℝ × ℝ :=
  ((x.w : ℝ) - (zScoreForBounds : ℝ) * Real.sqrt (P.a : ℝ),
   (x.w : ℝ) + (zScoreForBounds : ℝ) * Real.sqrt (P.a : ℝ))

/-! ## Intake imputation (src/main.py) -/

/-- main._get_fallback_intake: mean of the strictly positive logged intakes
    with 0 < (up_to_date − d).days ≤ 7; otherwise the last known TDEE. -/
def fallbackIntake (caloric : List (ℤ × ℚ)) (upTo : ℤ) (lastTdee : ℚ) : ℚ :=
  let relevant := (caloric.filter fun p =>
    decide (0 < p.2) && decide (0 < upTo - p.1) && decide (upTo - p.1 ≤ 7)).map Prod.snd
  if relevant = [] then lastTdee else relevant.sum / relevant.length

/-- Intake resolution of the day loop (main.process_user lines 102-110):
    the logged value is replaced by the fallback when it is absent, exactly
    zero, or positive but below lastTdee · MIN_PLAUSIBLE_INTAKE_RATIO. -/
def resolveIntake (caloric : List (ℤ × ℚ)) (day : ℤ) (lastTdee : ℚ) : ℚ :=
  match caloric.lookup day with
  | none => fallbackIntake caloric day lastTdee
  | some v =>
    if v = 0 ∨ (0 < v ∧ v < lastTdee * minPlausibleIntakeFactor) then
      fallbackIntake caloric day lastTdee
    else v

/-- Spec-worded description of the fallback window ("strictly positive
    logged intakes within the trailing 7 days before the target date"). -/
def trailingPositiveIntakes (caloric : List (ℤ × ℚ)) (target : ℤ) : List ℚ :=
  (caloric.filter fun p =>
    decide (p.1 < target) && decide (target - p.1 ≤ 7) && decide (0 < p.2)).map Prod.snd

/-! ## Daily driver (src/main.py, process_user day loop) -/

/-- One persisted history record (models.tdee_history.TDEEHistory as filled
    in by main.process_user lines 126-139). -/
structure HistoryRecord where
  day : ℤ
  estimated_tdee_kcal : ℚ
  lower_bound_kcal : ℝ
  upper_bound_kcal : ℝ
  is_prediction : Bool
  estimated_weight_kg : ℚ
  activity_multiplier : ℚ
  covariance_matrix : List ℚ

/-- The TDEEHistory entry built at main.py lines 126-139 from the post-step
    state and covariance: bounds via get_bounds, activity multiplier as
    tdee / BMR(current weight), covariance flattened row-major. -/
noncomputable def mkHistoryRecord (prof : Profile) (x : Vec2) (P : Mat2)
    (d : ℤ) (isPred : Bool) : HistoryRecord :=
  { day := d
    estimated_tdee_kcal := x.t
    lower_bound_kcal := (getBounds x P).1
    upper_bound_kcal := (getBounds x P).2
    is_prediction := isPred
    estimated_weight_kg := x.w
    activity_multiplier := x.t / calculateMifflinStJeorBmr prof.sex prof.age prof.height_cm x.w
    covariance_matrix := [P.a, P.b, P.c, P.d] }

/-- One iteration of the day loop (main.py lines 100-141): resolve the
    previous day's intake, predict, update only when a weight measurement
    exists for day d, then emit the history record.  none models the
    uncaught numpy exception on a singular innovation covariance, which
    aborts the whole user run. -/
noncomputable def dayStep (prof : Profile) (caloric : List (ℤ × ℚ))
    (weight : ℤ → Option ℚ) (x : Vec2) (P : Mat2) (d : ℤ) :
    Option (Vec2 × Mat2 × HistoryRecord) :=
  let intake := resolveIntake caloric (d - 1) x.t
  let x1 := predictState x intake
  let P1 := predictCov P
  match weight d with
  | none => some (x1, P1, mkHistoryRecord prof x1 P1 d true)
  | some z =>
    (update x1 P1 z).map fun r =>
      (r.1, r.2, mkHistoryRecord prof r.1 r.2 d false)

/-- The day loop run for n consecutive days starting at day d, threading
    (state, covariance) and accumulating the emitted records in order. -/
noncomputable def driverLoop (prof : Profile) (caloric : List (ℤ × ℚ))
    (weight : ℤ → Option ℚ) :
    Vec2 → Mat2 → ℤ → ℕ → Option (Vec2 × Mat2 × List HistoryRecord)
  | x, P, _, 0 => some (x, P, [])
  | x, P, d, n + 1 =>
    (dayStep prof caloric weight x P d).bind fun s =>
      (driverLoop prof caloric weight s.1 s.2.1 (d + 1) n).map fun r =>
        (r.1, r.2.1, s.2.2 :: r.2.2)

/-- The while-loop of process_user iterates from start_date through
    processing_end_date inclusive: max (cutoff + 1 − start) 0 days. -/
noncomputable def runDriver (prof : Profile) (caloric : List (ℤ × ℚ))
    (weight : ℤ → Option ℚ) (x : Vec2) (P : Mat2) (startDay cutoff : ℤ) :
    Option (Vec2 × Mat2 × List HistoryRecord) :=
  driverLoop prof caloric weight x P startDay (cutoff + 1 - startDay).toNat

/-! ## Forecast generation (src/main.py lines 173-204) -/

/-- One weight forecast record (models.weight_forecast.WeightForecast). -/
structure ForecastRecord where
  day : ℤ
  predictedWeightKg : ℚ
  lowerBoundKg : ℝ
  upperBoundKg : ℝ

/-- The forecast loop (main.py lines 177-202): each of the remaining n days
    runs one predict with that day's assumed intake (the intake schedule is
    consumed one value per day) and records the predicted weight with its
    weight bounds; no update ever runs.  The day counter advances by one
    per record. -/
noncomputable def forecastLoop (startDay : ℤ) :
    (ℕ → ℚ) → Vec2 → Mat2 → ℕ → List ForecastRecord
  | _, _, _, 0 => []
  | intakes, x, P, n + 1 =>
    let x1 := predictState x (intakes 0)
    let P1 := predictCov P
    { day := startDay
      predictedWeightKg := x1.w
      lowerBoundKg := (getWeightBounds x1 P1).1
      upperBoundKg := (getWeightBounds x1 P1).2 } ::
      forecastLoop (startDay + 1) (fun k => intakes (k + 1)) x1 P1 n

/-- main.py line 177: for i in range(14) — exactly 14 predict-only cycles. -/
noncomputable def generateForecast (intakes : ℕ → ℚ) (startDay : ℤ)
    (x : Vec2) (P : Mat2) : List ForecastRecord :=
  forecastLoop startDay intakes x P 14

/-- Modelled from the spec: FirestoreService.save_weight_forecast is absent
    from src (only its call site main.py:204 is present).  Per spec §6 the
    ForecastRecord batch write is a full overwrite of the user's prior
    forecast.  The forecast store is a map uid → record list. -/
def saveWeightForecast (store : String → List ForecastRecord) (uid : String)
    (recs : List ForecastRecord) : String → List ForecastRecord :=
  fun u => if u = uid then recs else store u

/-- Closed-form state of the forecast after n predict steps with the given
    intake schedule. -/
def forecastState (intakes : ℕ → ℚ) (x : Vec2) : ℕ → Vec2
  | 0 => x
  | n + 1 => predictState (forecastState intakes x n) (intakes n)

/-- History-then-forecast composition of process_user: the driver's final
    (state, covariance) is handed unchanged to forecast generation, which
    starts the day after the cutoff. -/
noncomputable def processCore (prof : Profile) (caloric : List (ℤ × ℚ))
    (weight : ℤ → Option ℚ) (x : Vec2) (P : Mat2) (startDay cutoff : ℤ)
    (intakes : ℕ → ℚ) :
    Option ((Vec2 × Mat2 × List HistoryRecord) × List ForecastRecord) :=
  (runDriver prof caloric weight x P startDay cutoff).map fun r =>
    (r, generateForecast intakes (cutoff + 1) r.1 r.2.1)

/-! ## Caloric-intake series (src/services/firestore.py lines 63-93) -/

/-- One intake-log document: creation day, completion status, energy. -/
structure MealLog where
  createdAtDay : ℤ
  status : String
  energy : ℚ

/-- Energies of the completed meal logs of day d that fall in the queried
    range (the Firestore query filters createdAt to [start, end] and
    status == "complete"; the sum loop buckets by calendar day). -/
def mealsOnDay (meals : List MealLog) (startDay endDay d : ℤ) : List ℚ :=
  (meals.filter fun m =>
    decide (startDay ≤ m.createdAtDay) && decide (m.createdAtDay ≤ endDay) &&
      decide (m.status = "complete") && decide (m.createdAtDay = d)).map MealLog.energy

/-- FirestoreService.get_caloric_intake_for_date_range: the result dict is
    pre-seeded with 0.0 for every date of the range (lines 67-70), then the
    energy of each in-range completed meal is added to its day's entry. -/
def getCaloricIntake (meals : List MealLog) (startDay endDay : ℤ) :
    List (ℤ × ℚ) :=
  (List.range (endDay + 1 - startDay).toNat).map fun i : ℕ =>
    (startDay + (i : ℤ), (mealsOnDay meals startDay endDay (startDay + (i : ℤ))).sum)

/-! ## Covariance invariants -/

/-- Symmetric positive-semidefinite 2x2 matrix. -/
def Mat2.PSD (P : Mat2) : Prop :=
  P.b = P.c ∧ 0 ≤ P.a ∧ 0 ≤ P.d ∧ P.b * P.c ≤ P.a * P.d

/-- Invariant maintained by the filter: symmetric, nonpositive
    off-diagonal, nonnegative diagonal, nonnegative determinant. -/
def covGood (P : Mat2) : Prop :=
  P.b = P.c ∧ P.b ≤ 0 ∧ 0 ≤ P.a ∧ 0 ≤ P.d ∧ P.b * P.c ≤ P.a * P.d

/-- Covariances reachable by the filter: any diagonal initial covariance
    with nonnegative entries (get_initial_state builds such a matrix),
    closed under predict and under successful update steps. -/
inductive Reachable : Mat2 → Prop
  | init (a d : ℚ) (ha : 0 ≤ a) (hd : 0 ≤ d) : Reachable ⟨a, 0, 0, d⟩
  | predict (P : Mat2) : Reachable P → Reachable (predictCov P)
  | update (x : Vec2) (P : Mat2) (z : ℚ) (x' : Vec2) (P' : Mat2) :
      Reachable P → update x P z = some (x', P') → Reachable P'

/-- Sample profile used to instantiate universally quantified theorems. -/
def sampleProfile : Profile := ⟨Sex.male, 30, 180⟩

/-! ## Helper lemmas -/

theorem update_of_ne (x : Vec2) (P : Mat2) (z : ℚ)
    (h : P.a + measurementNoiseVarWeight ≠ 0) :
    update x P z = some
      (⟨x.w + P.a * (P.a + measurementNoiseVarWeight)⁻¹ * (z - x.w),
        x.t + P.c * (P.a + measurementNoiseVarWeight)⁻¹ * (z - x.w)⟩,
       ⟨(1 - P.a * (P.a + measurementNoiseVarWeight)⁻¹) * P.a,
        (1 - P.a * (P.a + measurementNoiseVarWeight)⁻¹) * P.b,
        P.c - P.c * (P.a + measurementNoiseVarWeight)⁻¹ * P.a,
        P.d - P.c * (P.a + measurementNoiseVarWeight)⁻¹ * P.b⟩) := by
  simp [update, inv1, h]

theorem predictCov_components (P : Mat2) :
    (predictCov P).a
        = P.a - (P.b + P.c) / kcalPerKg + P.d / kcalPerKg ^ 2
            + calorieIntakeUncertaintyVar / kcalPerKg ^ 2 ∧
    (predictCov P).b = P.b - P.d / kcalPerKg ∧
    (predictCov P).c = P.c - P.d / kcalPerKg ∧
    (predictCov P).d = P.d + processNoiseVarTdee := by
  refine ⟨?_, ?_, ?_, ?_⟩ <;>
    simp [predictCov, matAdd, matMul, matTranspose, Fmat, Qmat] <;> ring

/-! ## Claim theorems -/

/-- C3: the predict step produces weight' = weight + (intake − tdee)/7700 and
    tdee' = tdee, and updates the covariance as P' = F·P·Fᵗ + Q with
    F = [[1, −1/7700], [0, 1]] and Q diagonal with the intake-uncertainty
    variance divided by 7700² on the weight channel and the fixed TDEE-drift
    variance on the TDEE channel; intake equal to the current TDEE leaves the
    weight unchanged, and intake 3200 at state (80, 2500) raises weight by
    exactly 700/7700 kg. -/
theorem C3_predict_step (x : Vec2) (P : Mat2) (intake : ℚ) :
    predictState x intake = ⟨x.w + (intake - x.t) / 7700, x.t⟩ ∧
    Fmat = ⟨1, -1 / 7700, 0, 1⟩ ∧
    Qmat = ⟨calorieIntakeUncertaintyVar / 7700 ^ 2, 0, 0, processNoiseVarTdee⟩ ∧
    predictCov P = matAdd (matMul (matMul Fmat P) (matTranspose Fmat)) Qmat ∧
    (predictCov P).a
        = P.a - (P.b + P.c) / 7700 + P.d / 7700 ^ 2
            + calorieIntakeUncertaintyVar / 7700 ^ 2 ∧
    (predictCov P).b = P.b - P.d / 7700 ∧
    (predictCov P).c = P.c - P.d / 7700 ∧
    (predictCov P).d = P.d + processNoiseVarTdee ∧
    predictState x x.t = x ∧
    (predictState ⟨80, 2500⟩ 3200).w = 80 + 700 / 7700 := by
  obtain ⟨h1, h2, h3, h4⟩ := predictCov_components P
  refine ⟨rfl, rfl, rfl, rfl, ?_, ?_, ?_, ?_, ?_, ?_⟩
  · rw [h1]; norm_num [kcalPerKg]
  · rw [h2]; norm_num [kcalPerKg]
  · rw [h3]; norm_num [kcalPerKg]
  · exact h4
  · show Vec2.mk (x.w + (x.t - x.t) / kcalPerKg) x.t = x
    rw [sub_self, zero_div, add_zero]
  · show (80 : ℚ) + (3200 - 2500) / kcalPerKg = 80 + 700 / 7700
    norm_num [kcalPerKg]

/-- C4: for a symmetric positive-semidefinite covariance and any measured
    weight, since R > 0 the update step succeeds and never increases either
    diagonal covariance entry. -/
theorem C4_update_never_inflates_diagonal (x : Vec2) (P : Mat2) (z : ℚ)
    (h : P.PSD) :
    ∃ x' P', update x P z = some (x', P') ∧ P'.a ≤ P.a ∧ P'.d ≤ P.d := by
  obtain ⟨hbc, ha, hd, hdet⟩ := h
  have hS : 0 < P.a + measurementNoiseVarWeight := by
    have : (0 : ℚ) < measurementNoiseVarWeight := by norm_num [measurementNoiseVarWeight]
    linarith
  have hSi : 0 ≤ (P.a + measurementNoiseVarWeight)⁻¹ := le_of_lt (inv_pos.2 hS)
  refine ⟨_, _, update_of_ne x P z (ne_of_gt hS), ?_, ?_⟩
  · have hsq : 0 ≤ P.a * (P.a + measurementNoiseVarWeight)⁻¹ * P.a :=
      mul_nonneg (mul_nonneg ha hSi) ha
    nlinarith [hsq]
  · have hsq : 0 ≤ P.c * (P.a + measurementNoiseVarWeight)⁻¹ * P.b := by
      have hbb : 0 ≤ P.b * P.c := hbc ▸ mul_self_nonneg P.b
      calc (0 : ℚ) ≤ (P.a + measurementNoiseVarWeight)⁻¹ * (P.b * P.c) :=
            mul_nonneg hSi hbb
        _ = P.c * (P.a + measurementNoiseVarWeight)⁻¹ * P.b := by ring
    linarith

/-- C4 witness at a concrete symmetric PSD covariance. -/
theorem C4_witness :
    ∃ x' P', update ⟨80, 2000⟩ ⟨1, 0, 0, 1⟩ 81 = some (x', P') ∧
      P'.a ≤ 1 ∧ P'.d ≤ 1 :=
  C4_update_never_inflates_diagonal ⟨80, 2000⟩ ⟨1, 0, 0, 1⟩ 81
    ⟨rfl, by norm_num, by norm_num, by norm_num⟩

/-- C6: contrary to the claim, the update step contains no assertion that
    the innovation covariance S is strictly positive: at a covariance with
    P[0,0] = −1 the innovation covariance is −3/4 < 0, yet the update
    succeeds (no abort) and hands its corrupted output to the history
    record of that day. -/
theorem C6_no_singularity_guard :
    (⟨-1, 0, 0, 1⟩ : Mat2).a + measurementNoiseVarWeight < 0 ∧
    (update ⟨80, 2000⟩ ⟨-1, 0, 0, 1⟩ 79).isSome = true := by
  constructor
  · norm_num [measurementNoiseVarWeight]
  · rw [update_of_ne]
    · rfl
    · norm_num [measurementNoiseVarWeight]

/-- C7: bounds are computed independently per channel — TDEE from P[1,1],
    weight from P[0,0] — as estimate ± 1.96·√variance, and with nonnegative
    channel variance the interval is symmetric about the estimate. -/
theorem C7_bounds_symmetric (x : Vec2) (P : Mat2)
    (ha : 0 ≤ P.a) (hd : 0 ≤ P.d) :
    getBounds x P = ((x.t : ℝ) - (zScoreForBounds : ℝ) * Real.sqrt (P.d : ℝ),
                     (x.t : ℝ) + (zScoreForBounds : ℝ) * Real.sqrt (P.d : ℝ)) ∧
    getWeightBounds x P
        = ((x.w : ℝ) - (zScoreForBounds : ℝ) * Real.sqrt (P.a : ℝ),
           (x.w : ℝ) + (zScoreForBounds : ℝ) * Real.sqrt (P.a : ℝ)) ∧
    (getBounds x P).2 - (x.t : ℝ) = (x.t : ℝ) - (getBounds x P).1 ∧
    (getWeightBounds x P).2 - (x.w : ℝ) = (x.w : ℝ) - (getWeightBounds x P).1 := by
  refine ⟨rfl, rfl, ?_, ?_⟩ <;> simp [getBounds, getWeightBounds] <;> ring

theorem fallbackIntake_eq_trailing (c : List (ℤ × ℚ)) (d : ℤ) (t : ℚ) :
    fallbackIntake c d t =
      if trailingPositiveIntakes c d = [] then t
      else (trailingPositiveIntakes c d).sum / (trailingPositiveIntakes c d).length := by
  have hfun : (fun p : ℤ × ℚ =>
        decide (0 < p.2) && decide (0 < d - p.1) && decide (d - p.1 ≤ 7))
      = fun p : ℤ × ℚ =>
        decide (p.1 < d) && decide (d - p.1 ≤ 7) && decide (0 < p.2) := by
    funext p
    rw [decide_eq_decide.2 (sub_pos (a := d) (b := p.1))]
    rw [Bool.and_comm (decide (0 < p.2)) (decide (p.1 < d)), Bool.and_assoc,
      Bool.and_comm (decide (0 < p.2)) (decide (d - p.1 ≤ 7)), ← Bool.and_assoc]
  simp only [fallbackIntake, trailingPositiveIntakes, hfun]

/-- C5 counterexample: a present but strictly negative logged intake is used
    as-is by the code, while the claim prescribes the fallback (which here
    is the last known TDEE, 2000). -/
theorem C5_counterexample_negative_intake :
    resolveIntake [((0 : ℤ), (-100 : ℚ))] 0 2000 = -100 ∧
    fallbackIntake [((0 : ℤ), (-100 : ℚ))] 0 2000 = 2000 ∧
    ((-100 : ℚ) ≠ 2000) := by decide

/-- C5 amended: the logged value is returned exactly when it is present,
    nonzero, and not in the open interval (0, last_known_tdee·0.6) — so a
    negative logged value is also returned as-is; in the remaining cases
    (absent, exactly zero, or positive but implausibly low) the fallback is
    returned: the mean of the strictly positive logged intakes of the 7 days
    strictly before the target date, or the last known TDEE if none exist. -/
theorem C5_amended_intake_imputer (c : List (ℤ × ℚ)) (d : ℤ) (t : ℚ) :
    (∀ v, c.lookup d = some v → v ≠ 0 →
        ¬(0 < v ∧ v < t * minPlausibleIntakeFactor) → resolveIntake c d t = v) ∧
    (c.lookup d = none → resolveIntake c d t = fallbackIntake c d t) ∧
    (∀ v, c.lookup d = some v →
        v = 0 ∨ (0 < v ∧ v < t * minPlausibleIntakeFactor) →
        resolveIntake c d t = fallbackIntake c d t) ∧
    (trailingPositiveIntakes c d = [] → fallbackIntake c d t = t) ∧
    (trailingPositiveIntakes c d ≠ [] →
        fallbackIntake c d t
          = (trailingPositiveIntakes c d).sum / (trailingPositiveIntakes c d).length) := by
  refine ⟨?_, ?_, ?_, ?_, ?_⟩
  · intro v hv hne hni
    have hcond : ¬(v = 0 ∨ (0 < v ∧ v < t * minPlausibleIntakeFactor)) :=
      not_or.mpr ⟨hne, hni⟩
    simp [resolveIntake, hv, hcond]
  · intro h
    simp [resolveIntake, h]
  · intro v hv hcond
    simp [resolveIntake, hv, hcond]
  · intro h
    rw [fallbackIntake_eq_trailing, if_pos h]
  · intro h
    rw [fallbackIntake_eq_trailing, if_neg h]

/-- C5 witness: a plausible logged intake is returned as-is, and an
    explicit zero routes to the fallback. -/
theorem C5_witness :
    resolveIntake [((0 : ℤ), (2000 : ℚ))] 0 2500 = 2000 ∧
    resolveIntake [((0 : ℤ), (0 : ℚ))] 0 2500
      = fallbackIntake [((0 : ℤ), (0 : ℚ))] 0 2500 :=
  ⟨(C5_amended_intake_imputer [((0 : ℤ), (2000 : ℚ))] 0 2500).1 2000 (by decide)
      (by norm_num) (by norm_num [minPlausibleIntakeFactor]),
   (C5_amended_intake_imputer [((0 : ℤ), (0 : ℚ))] 0 2500).2.2.1 0 (by decide)
      (Or.inl rfl)⟩

theorem lookup_getCaloricIntake (meals : List MealLog) (s e dd : ℤ)
    (h1 : s ≤ dd) (h2 : dd ≤ e) :
    (getCaloricIntake meals s e).lookup dd
      = some (mealsOnDay meals s e dd).sum := by
  have hmap : getCaloricIntake meals s e
      = ((List.range (e + 1 - s).toNat).map fun i : ℕ => s + (i : ℤ)).map
          fun x => (x, (mealsOnDay meals s e x).sum) := by
    rw [List.map_map]
    simp only [Function.comp_def]
    rfl
  rw [hmap]
  apply List.lookup_graph
  simp only [List.mem_map, List.mem_range]
  exact ⟨(dd - s).toNat, by omega, by omega⟩

/-- C8 counterexample: for an empty meal-log collection the returned series
    still contains every date of the queried range, mapped to zero — a date
    with no completed entries is present (as 0.0), not absent. -/
theorem C8_counterexample_dense_series :
    (getCaloricIntake [] 0 1).lookup 0 = some 0 ∧
    getCaloricIntake [] 0 1 = [(0, 0), (1, 0)] := by decide

/-- C8 amended: the caloric-intake series returned for a queried range is
    dense: every date of the range is present, mapped to the summed energy
    of its completed entries, and a date with no completed entries is mapped
    to 0.0 rather than absent; the driver treats such a zero entry exactly
    like missing data (it routes to the fallback). -/
theorem C8_amended_dense_series (meals : List MealLog) (s e dd : ℤ)
    (h1 : s ≤ dd) (h2 : dd ≤ e) :
    (getCaloricIntake meals s e).lookup dd
      = some (mealsOnDay meals s e dd).sum ∧
    (mealsOnDay meals s e dd = [] →
      (getCaloricIntake meals s e).lookup dd = some 0) ∧
    ∀ t, (mealsOnDay meals s e dd).sum = 0 →
      resolveIntake (getCaloricIntake meals s e) dd t
        = fallbackIntake (getCaloricIntake meals s e) dd t := by
  have hl := lookup_getCaloricIntake meals s e dd h1 h2
  refine ⟨hl, ?_, ?_⟩
  · intro h
    rw [hl, h]; rfl
  · intro t h
    rw [h] at hl
    simp [resolveIntake, hl]

/-- C8 witness: a concrete in-range date of an empty collection. -/
theorem C8_witness :
    (getCaloricIntake [] 0 1).lookup 0 = some (mealsOnDay [] 0 1 0).sum ∧
    (mealsOnDay [] 0 1 0 = [] → (getCaloricIntake [] 0 1).lookup 0 = some 0) ∧
    (∀ t, (mealsOnDay [] 0 1 0).sum = 0 →
      resolveIntake (getCaloricIntake [] 0 1) 0 t
        = fallbackIntake (getCaloricIntake [] 0 1) 0 t) :=
  C8_amended_dense_series [] 0 1 0 (by norm_num) (by norm_num)

/-- C7 witness at a concrete state and covariance. -/
theorem C7_witness :
    getBounds ⟨80, 2000⟩ ⟨1, 0, 0, 1⟩
        = (((2000 : ℚ) : ℝ) - ((zScoreForBounds : ℚ) : ℝ) * Real.sqrt ((1 : ℚ) : ℝ),
           ((2000 : ℚ) : ℝ) + ((zScoreForBounds : ℚ) : ℝ) * Real.sqrt ((1 : ℚ) : ℝ)) ∧
    getWeightBounds ⟨80, 2000⟩ ⟨1, 0, 0, 1⟩
        = (((80 : ℚ) : ℝ) - ((zScoreForBounds : ℚ) : ℝ) * Real.sqrt ((1 : ℚ) : ℝ),
           ((80 : ℚ) : ℝ) + ((zScoreForBounds : ℚ) : ℝ) * Real.sqrt ((1 : ℚ) : ℝ)) ∧
    (getBounds ⟨80, 2000⟩ ⟨1, 0, 0, 1⟩).2 - ((2000 : ℚ) : ℝ)
        = ((2000 : ℚ) : ℝ) - (getBounds ⟨80, 2000⟩ ⟨1, 0, 0, 1⟩).1 ∧
    (getWeightBounds ⟨80, 2000⟩ ⟨1, 0, 0, 1⟩).2 - ((80 : ℚ) : ℝ)
        = ((80 : ℚ) : ℝ) - (getWeightBounds ⟨80, 2000⟩ ⟨1, 0, 0, 1⟩).1 :=
  C7_bounds_symmetric ⟨80, 2000⟩ ⟨1, 0, 0, 1⟩ (by norm_num) (by norm_num)

theorem dayStep_fields (prof : Profile) (caloric : List (ℤ × ℚ))
    (weight : ℤ → Option ℚ) (x : Vec2) (P : Mat2) (d : ℤ)
    (x' : Vec2) (P' : Mat2) (r : HistoryRecord)
    (h : dayStep prof caloric weight x P d = some (x', P', r)) :
    r.day = d ∧
    r.estimated_tdee_kcal = x'.t ∧
    r.lower_bound_kcal = (getBounds x' P').1 ∧
    r.upper_bound_kcal = (getBounds x' P').2 ∧
    r.estimated_weight_kg = x'.w ∧
    r.activity_multiplier
      = x'.t / calculateMifflinStJeorBmr prof.sex prof.age prof.height_cm x'.w ∧
    r.covariance_matrix = [P'.a, P'.b, P'.c, P'.d] ∧
    (r.is_prediction = true ↔ weight d = none) := by
  simp only [dayStep] at h
  cases hw : weight d with
  | none =>
    rw [hw] at h
    simp only [Option.some.injEq, Prod.mk.injEq] at h
    obtain ⟨h1, h2, h3⟩ := h
    subst h1; subst h2; subst h3
    simp [mkHistoryRecord, hw]
  | some z =>
    simp only [hw] at h
    cases hu : update (predictState x (resolveIntake caloric (d - 1) x.t))
        (predictCov P) z with
    | none => rw [hu] at h; simp at h
    | some pr =>
      rw [hu] at h
      simp only [Option.map_some', Option.some.injEq, Prod.mk.injEq] at h
      obtain ⟨h1, h2, h3⟩ := h
      subst h1; subst h2; subst h3
      simp [mkHistoryRecord, hw]

theorem driverLoop_spec (prof : Profile) (caloric : List (ℤ × ℚ))
    (weight : ℤ → Option ℚ) :
    ∀ (n : ℕ) (x : Vec2) (P : Mat2) (d : ℤ) (xf : Vec2) (Pf : Mat2)
      (recs : List HistoryRecord),
      driverLoop prof caloric weight x P d n = some (xf, Pf, recs) →
      recs.length = n ∧
      ∀ j, j < n → ∃ xs Ps xo Po r,
        dayStep prof caloric weight xs Ps (d + (j : ℤ)) = some (xo, Po, r) ∧
        recs[j]? = some r := by
  intro n
  induction n with
  | zero =>
    intro x P d xf Pf recs h
    simp only [driverLoop, Option.some.injEq, Prod.mk.injEq] at h
    obtain ⟨-, -, h3⟩ := h
    refine ⟨by rw [← h3]; rfl, fun j hj => absurd hj (by omega)⟩
  | succ n ih =>
    intro x P d xf Pf recs h
    simp only [driverLoop] at h
    cases hds : dayStep prof caloric weight x P d with
    | none => rw [hds] at h; simp at h
    | some s =>
      rw [hds] at h
      simp only [Option.some_bind] at h
      cases hdl : driverLoop prof caloric weight s.1 s.2.1 (d + 1) n with
      | none => rw [hdl] at h; simp at h
      | some rr =>
        rw [hdl] at h
        simp only [Option.map_some', Option.some.injEq, Prod.mk.injEq] at h
        obtain ⟨h1, h2, h3⟩ := h
        obtain ⟨hlen, hget⟩ := ih s.1 s.2.1 (d + 1) rr.1 rr.2.1 rr.2.2 (by rw [hdl])
        constructor
        · rw [← h3, List.length_cons, hlen]
        · intro j hj
          cases j with
          | zero =>
            refine ⟨x, P, s.1, s.2.1, s.2.2, ?_, ?_⟩
            · simpa using hds
            · rw [← h3]; simp
          | succ j =>
            obtain ⟨xs, Ps, xo, Po, r, hstep, hr⟩ := hget j (by omega)
            refine ⟨xs, Ps, xo, Po, r, ?_, ?_⟩
            · have hc : d + ((j + 1 : ℕ) : ℤ) = (d + 1) + (j : ℤ) := by push_cast; ring
              rw [hc]; exact hstep
            · rw [← h3]; simpa using hr

/-- C2: on a successful run, the day loop emits exactly one history record
    per processed day from start through cutoff, and each record carries the
    post-step estimated TDEE, the TDEE bounds, the estimated weight, an
    activity multiplier equal to TDEE divided by BMR at the current weight,
    a flattened snapshot of the 2x2 covariance, and an is_prediction flag
    that is true iff no weight measurement was available for that day; the
    emitted list is the end-of-run batch. -/
theorem C2_history_records (prof : Profile) (caloric : List (ℤ × ℚ))
    (weight : ℤ → Option ℚ) (x : Vec2) (P : Mat2) (startDay cutoff : ℤ)
    (xf : Vec2) (Pf : Mat2) (recs : List HistoryRecord)
    (h : runDriver prof caloric weight x P startDay cutoff = some (xf, Pf, recs)) :
    recs.length = (cutoff + 1 - startDay).toNat ∧
    ∀ j, j < (cutoff + 1 - startDay).toNat → ∃ xs Ps x' P' r,
      dayStep prof caloric weight xs Ps (startDay + (j : ℤ)) = some (x', P', r) ∧
      recs[j]? = some r ∧
      r.day = startDay + (j : ℤ) ∧
      r.estimated_tdee_kcal = x'.t ∧
      r.lower_bound_kcal = (getBounds x' P').1 ∧
      r.upper_bound_kcal = (getBounds x' P').2 ∧
      r.estimated_weight_kg = x'.w ∧
      r.activity_multiplier
        = x'.t / calculateMifflinStJeorBmr prof.sex prof.age prof.height_cm x'.w ∧
      r.covariance_matrix = [P'.a, P'.b, P'.c, P'.d] ∧
      (r.is_prediction = true ↔ weight (startDay + (j : ℤ)) = none) := by
  obtain ⟨hlen, hget⟩ :=
    driverLoop_spec prof caloric weight _ x P startDay xf Pf recs h
  refine ⟨hlen, fun j hj => ?_⟩
  obtain ⟨xs, Ps, xo, Po, r, hstep, hr⟩ := hget j hj
  obtain ⟨f1, f2, f3, f4, f5, f6, f7, f8⟩ :=
    dayStep_fields prof caloric weight xs Ps _ xo Po r hstep
  exact ⟨xs, Ps, xo, Po, r, hstep, hr, f1, f2, f3, f4, f5, f6, f7, f8⟩

/-- C2 witness: a one-day run with no weight measurement emits exactly one
    record, marked as a prediction. -/
theorem C2_witness :
    ∃ xf Pf recs,
      runDriver sampleProfile [] (fun _ => none) ⟨80, 2000⟩ ⟨1, 0, 0, 1⟩ 0 0
        = some (xf, Pf, recs) ∧
      recs.length = 1 ∧
      ∃ r, recs[0]? = some r ∧ r.is_prediction = true := by
  have hs : (runDriver sampleProfile [] (fun _ => none)
      ⟨80, 2000⟩ ⟨1, 0, 0, 1⟩ 0 0).isSome = true := rfl
  obtain ⟨v, hv⟩ := Option.isSome_iff_exists.mp hs
  obtain ⟨xf, Pf, recs⟩ := v
  obtain ⟨hlen, hget⟩ := C2_history_records sampleProfile [] (fun _ => none)
    ⟨80, 2000⟩ ⟨1, 0, 0, 1⟩ 0 0 xf Pf recs hv
  refine ⟨xf, Pf, recs, hv, ?_, ?_⟩
  · rw [hlen]; rfl
  · obtain ⟨xs, Ps, x', P', r, hstep, hr, hday, f2, f3, f4, f5, f6, f7, hpred⟩ :=
      hget 0 (by decide)
    exact ⟨r, hr, hpred.mpr rfl⟩

/-- C10: if the checkpoint is at or past the cutoff the day loop performs
    zero iterations: no history record is produced and the checkpoint
    (state, covariance) passes unchanged into forecast generation. -/
theorem C10_idempotent_when_caught_up (prof : Profile) (caloric : List (ℤ × ℚ))
    (weight : ℤ → Option ℚ) (x : Vec2) (P : Mat2) (intakes : ℕ → ℚ)
    (chk cutoff : ℤ) (h : cutoff ≤ chk) :
    runDriver prof caloric weight x P (chk + 1) cutoff = some (x, P, []) ∧
    processCore prof caloric weight x P (chk + 1) cutoff intakes
      = some ((x, P, []), generateForecast intakes (cutoff + 1) x P) := by
  have hn : (cutoff + 1 - (chk + 1)).toNat = 0 := by omega
  have h1 : runDriver prof caloric weight x P (chk + 1) cutoff
      = some (x, P, []) := by
    simp only [runDriver, hn, driverLoop]
  exact ⟨h1, by simp only [processCore, h1, Option.map_some']⟩

/-- C10 witness: checkpoint day 5, cutoff day 3. -/
theorem C10_witness :
    runDriver sampleProfile [] (fun _ => none) ⟨80, 2000⟩ ⟨1, 0, 0, 1⟩ (5 + 1) 3
      = some (⟨80, 2000⟩, ⟨1, 0, 0, 1⟩, []) ∧
    processCore sampleProfile [] (fun _ => none) ⟨80, 2000⟩ ⟨1, 0, 0, 1⟩
        (5 + 1) 3 (fun _ => 2000)
      = some ((⟨80, 2000⟩, ⟨1, 0, 0, 1⟩, []),
          generateForecast (fun _ => 2000) (3 + 1) ⟨80, 2000⟩ ⟨1, 0, 0, 1⟩) :=
  C10_idempotent_when_caught_up sampleProfile [] (fun _ => none) ⟨80, 2000⟩
    ⟨1, 0, 0, 1⟩ (fun _ => 2000) 5 3 (by norm_num)

theorem forecastState_shift (intakes : ℕ → ℚ) (x : Vec2) (n : ℕ) :
    forecastState (fun k => intakes (k + 1)) (predictState x (intakes 0)) n
      = forecastState intakes x (n + 1) := by
  induction n with
  | zero => rfl
  | succ n ih => simp only [forecastState, ih]

theorem forecastLoop_spec (n : ℕ) :
    ∀ (intakes : ℕ → ℚ) (sd : ℤ) (x : Vec2) (P : Mat2),
      forecastLoop sd intakes x P n
        = (List.range n).map fun j =>
            { day := sd + (j : ℤ)
              predictedWeightKg := (forecastState intakes x (j + 1)).w
              lowerBoundKg := (getWeightBounds (forecastState intakes x (j + 1))
                  (predictCov^[j + 1] P)).1
              upperBoundKg := (getWeightBounds (forecastState intakes x (j + 1))
                  (predictCov^[j + 1] P)).2 } := by
  induction n with
  | zero => intro intakes sd x P; rfl
  | succ n ih =>
    intro intakes sd x P
    rw [List.range_succ_eq_map, List.map_cons, List.map_map]
    simp only [forecastLoop]
    congr 1
    · simp [forecastState, Function.iterate_one]
    · rw [ih]
      apply List.map_congr_left
      intro j hj
      simp only [Function.comp_apply]
      have hday : (sd + 1) + (j : ℤ) = sd + ((j + 1 : ℕ) : ℤ) := by push_cast; ring
      have hst : forecastState (fun k => intakes (k + 1))
          (predictState x (intakes 0)) (j + 1)
            = forecastState intakes x (j + 1 + 1) := forecastState_shift intakes x (j + 1)
      have hcov : predictCov^[j + 1] (predictCov P) = predictCov^[j + 1 + 1] P :=
        (Function.iterate_succ_apply predictCov (j + 1) P).symm
      rw [hday, hst, hcov]

/-- C1: the forecast generator runs exactly 14 predict-only cycles from the
    driver's final (state, covariance): the j-th record is dated j+1 days
    after the start, and carries the predicted weight together with the
    lower and upper weight bounds of the (j+1)-fold predict-iterated state
    and covariance (no update step anywhere); saving replaces the user's
    prior forecast wholesale. -/
theorem C1_forecast_fourteen_predict_only (intakes : ℕ → ℚ) (sd : ℤ)
    (x : Vec2) (P : Mat2) (store : String → List ForecastRecord)
    (uid : String) :
    (generateForecast intakes sd x P).length = 14 ∧
    generateForecast intakes sd x P
      = (List.range 14).map (fun j =>
          { day := sd + (j : ℤ)
            predictedWeightKg := (forecastState intakes x (j + 1)).w
            lowerBoundKg := (getWeightBounds (forecastState intakes x (j + 1))
                (predictCov^[j + 1] P)).1
            upperBoundKg := (getWeightBounds (forecastState intakes x (j + 1))
                (predictCov^[j + 1] P)).2 }) ∧
    saveWeightForecast store uid (generateForecast intakes sd x P) uid
      = generateForecast intakes sd x P := by
  have hspec := forecastLoop_spec 14 intakes sd x P
  refine ⟨?_, hspec, ?_⟩
  · show (forecastLoop sd intakes x P 14).length = 14
    rw [hspec, List.length_map, List.length_range]
  · simp [saveWeightForecast]

theorem predictCov_components_num (P : Mat2) :
    (predictCov P).a
        = P.a - (P.b + P.c) / 7700 + P.d / 7700 ^ 2 + 40000 / 7700 ^ 2 ∧
    (predictCov P).b = P.b - P.d / 7700 ∧
    (predictCov P).c = P.c - P.d / 7700 ∧
    (predictCov P).d = P.d + 2500 := by
  obtain ⟨h1, h2, h3, h4⟩ := predictCov_components P
  rw [h1, h2, h3, h4]
  norm_num [kcalPerKg, calorieIntakeUncertaintyVar, processNoiseVarTdee]

theorem covGood_predictCov (P : Mat2) (h : covGood P) :
    covGood (predictCov P) := by
  obtain ⟨hbc, hb, ha, hd, hdet⟩ := h
  obtain ⟨h1, h2, h3, h4⟩ := predictCov_components_num P
  have hAa : 0 ≤ P.a - (P.b + P.c) / 7700 + P.d / 7700 ^ 2 := by
    rw [← hbc] at *
    nlinarith
  refine ⟨?_, ?_, ?_, ?_, ?_⟩
  · rw [h2, h3, hbc]
  · rw [h2]; nlinarith
  · rw [h1]; nlinarith
  · rw [h4]; linarith
  · have hkey : (predictCov P).a * (predictCov P).d
        - (predictCov P).b * (predictCov P).c
        = (P.a * P.d - P.b * P.c)
            + (P.a - (P.b + P.c) / 7700 + P.d / 7700 ^ 2) * 2500
            + (40000 / 7700 ^ 2) * P.d + (40000 / 7700 ^ 2) * 2500 := by
      rw [h1, h2, h3, h4]; ring
    nlinarith [hkey, mul_nonneg hAa (by norm_num : (0 : ℚ) ≤ 2500),
      mul_nonneg (by norm_num : (0 : ℚ) ≤ 40000 / 7700 ^ 2) hd]

theorem covGood_update (x : Vec2) (P : Mat2) (z : ℚ) (x' : Vec2) (P' : Mat2)
    (h : covGood P) (hu : update x P z = some (x', P')) : covGood P' := by
  obtain ⟨hbc, hb, ha, hd, hdet⟩ := h
  have hR : (0 : ℚ) < measurementNoiseVarWeight := by
    norm_num [measurementNoiseVarWeight]
  have hS : 0 < P.a + measurementNoiseVarWeight := by linarith
  rw [update_of_ne x P z (ne_of_gt hS)] at hu
  simp only [Option.some.injEq, Prod.mk.injEq] at hu
  obtain ⟨-, hP⟩ := hu
  rw [← hP]
  have hsi : 0 ≤ (P.a + measurementNoiseVarWeight)⁻¹ := (inv_pos.2 hS).le
  have hone : 1 - P.a * (P.a + measurementNoiseVarWeight)⁻¹
      = measurementNoiseVarWeight * (P.a + measurementNoiseVarWeight)⁻¹ := by
    field_simp
  refine ⟨?_, ?_, ?_, ?_, ?_⟩
  · show (1 - P.a * (P.a + measurementNoiseVarWeight)⁻¹) * P.b
      = P.c - P.c * (P.a + measurementNoiseVarWeight)⁻¹ * P.a
    rw [hbc]; ring
  · show (1 - P.a * (P.a + measurementNoiseVarWeight)⁻¹) * P.b ≤ 0
    rw [hone]
    exact mul_nonpos_of_nonneg_of_nonpos (mul_nonneg hR.le hsi) hb
  · show 0 ≤ (1 - P.a * (P.a + measurementNoiseVarWeight)⁻¹) * P.a
    rw [hone]
    exact mul_nonneg (mul_nonneg hR.le hsi) ha
  · show 0 ≤ P.d - P.c * (P.a + measurementNoiseVarWeight)⁻¹ * P.b
    have h1 : P.c * (P.a + measurementNoiseVarWeight)⁻¹ * P.b
        = (P.a + measurementNoiseVarWeight)⁻¹ * (P.b * P.c) := by ring
    have h2 : (P.a + measurementNoiseVarWeight)⁻¹ * (P.b * P.c)
        ≤ (P.a + measurementNoiseVarWeight)⁻¹
            * ((P.a + measurementNoiseVarWeight) * P.d) := by
      apply mul_le_mul_of_nonneg_left _ hsi
      calc P.b * P.c ≤ P.a * P.d := hdet
        _ ≤ (P.a + measurementNoiseVarWeight) * P.d := by nlinarith
    have h3 : (P.a + measurementNoiseVarWeight)⁻¹
        * ((P.a + measurementNoiseVarWeight) * P.d) = P.d := by
      field_simp
    linarith
  · show ((1 - P.a * (P.a + measurementNoiseVarWeight)⁻¹) * P.b)
        * (P.c - P.c * (P.a + measurementNoiseVarWeight)⁻¹ * P.a)
      ≤ ((1 - P.a * (P.a + measurementNoiseVarWeight)⁻¹) * P.a)
        * (P.d - P.c * (P.a + measurementNoiseVarWeight)⁻¹ * P.b)
    have hkey : ((1 - P.a * (P.a + measurementNoiseVarWeight)⁻¹) * P.a)
          * (P.d - P.c * (P.a + measurementNoiseVarWeight)⁻¹ * P.b)
        - ((1 - P.a * (P.a + measurementNoiseVarWeight)⁻¹) * P.b)
          * (P.c - P.c * (P.a + measurementNoiseVarWeight)⁻¹ * P.a)
        = (1 - P.a * (P.a + measurementNoiseVarWeight)⁻¹)
          * (P.a * P.d - P.b * P.c) := by ring
    have hpos : 0 ≤ (1 - P.a * (P.a + measurementNoiseVarWeight)⁻¹)
        * (P.a * P.d - P.b * P.c) := by
      rw [hone]
      exact mul_nonneg (mul_nonneg hR.le hsi) (by linarith)
    linarith

theorem reachable_covGood (P : Mat2) (h : Reachable P) : covGood P := by
  induction h with
  | init a d ha hd =>
    exact ⟨rfl, le_refl 0, ha, hd, by simpa using mul_nonneg ha hd⟩
  | predict P hP ih => exact covGood_predictCov P ih
  | update x P z x' P' hP hu ih => exact covGood_update x P z x' P' ih hu

theorem predictCov_a_mono (P : Mat2) (h : covGood P) :
    P.a ≤ (predictCov P).a := by
  obtain ⟨hbc, hb, ha, hd, hdet⟩ := h
  obtain ⟨h1, -, -, -⟩ := predictCov_components_num P
  rw [h1, ← hbc]
  nlinarith

theorem covGood_iterate (P : Mat2) (h : covGood P) (n : ℕ) :
    covGood (predictCov^[n] P) := by
  induction n with
  | zero => exact h
  | succ n ih =>
    rw [Function.iterate_succ_apply']
    exact covGood_predictCov _ ih

/-- C9: starting from a covariance reachable by the filter, the
    weight-channel variance P[0,0] is non-decreasing from each of the 14
    predict-only forecast steps to the next, and with assumed intake held
    exactly at the current TDEE estimate the weight (and TDEE) trajectory
    of the 14-day forecast is flat. -/
theorem C9_forecast_variance_monotone (P : Mat2) (hP : Reachable P)
    (i : ℕ) (hi : i < 14) :
    (predictCov^[i] P).a ≤ (predictCov^[i + 1] P).a ∧
    ∀ (x : Vec2) (n : ℕ), n ≤ 14 →
      ((fun s => predictState s x.t)^[n] x).w = x.w ∧
      ((fun s => predictState s x.t)^[n] x).t = x.t := by
  constructor
  · rw [Function.iterate_succ_apply']
    exact predictCov_a_mono _ (covGood_iterate P (reachable_covGood P hP) i)
  · intro x n hn
    have hfix : (fun s => predictState s x.t) x = x := by
      show Vec2.mk (x.w + (x.t - x.t) / kcalPerKg) x.t = x
      rw [sub_self, zero_div, add_zero]
    rw [Function.iterate_fixed hfix n]
    exact ⟨rfl, rfl⟩

/-- C9 witness at the reachable diagonal covariance diag(1/100, 2500). -/
theorem C9_witness :
    (predictCov^[0] (⟨1/100, 0, 0, 2500⟩ : Mat2)).a
      ≤ (predictCov^[0 + 1] (⟨1/100, 0, 0, 2500⟩ : Mat2)).a ∧
    ∀ (x : Vec2) (n : ℕ), n ≤ 14 →
      ((fun s => predictState s x.t)^[n] x).w = x.w ∧
      ((fun s => predictState s x.t)^[n] x).t = x.t :=
  C9_forecast_variance_monotone ⟨1/100, 0, 0, 2500⟩
    (Reachable.init (1/100) 2500 (by norm_num) (by norm_num)) 0 (by norm_num)

end TDEE
